import Mathlib

/-!
Verification development for the Family Expense Tracker repository
(src/backend.py, src/main.py).  The SQLite-backed persistence layer and the
tracker wrapper are shallowly embedded: tables become lists of records,
REAL values become rationals, AUTOINCREMENT becomes an explicit sequence
counter, and fallible operations return Except.
-/

namespace FET

/-! ## Calendar dates and the date formats of backend.add_expense -/

/-- Gregorian leap-year rule, as used by Python datetime. -/
def isLeap (y : Nat) : Bool := (y % 4 == 0 && y % 100 != 0) || (y % 400 == 0)

/-- Number of days in a month, as validated by Python datetime. -/
def daysInMonth (y m : Nat) : Nat :=
  if m = 2 then (if isLeap y then 29 else 28)
  else if m = 4 ∨ m = 6 ∨ m = 9 ∨ m = 11 then 30
  else 31

/-- A calendar date candidate (Python datetime.date values are the valid ones). -/
structure DateD where
  year : Nat
  month : Nat
  day : Nat
deriving DecidableEq

/-- Validity as enforced by the Python datetime.date constructor
(MINYEAR = 1, MAXYEAR = 9999, day within the month). -/
def DateD.valid (d : DateD) : Bool :=
  1 ≤ d.year && d.year ≤ 9999 && 1 ≤ d.month && d.month ≤ 12 &&
  1 ≤ d.day && d.day ≤ daysInMonth d.year d.month

/-- Decimal digit character. -/
def digitChar (n : Nat) : Char := Char.ofNat (48 + n)

/-- Numeric value of a digit character. -/
def digVal (c : Char) : Nat := c.toNat - 48

/-- Two-digit zero padding, as in datetime.date.isoformat. -/
def pad2 (n : Nat) : String := String.mk [digitChar (n / 10 % 10), digitChar (n % 10)]

/-- Four-digit zero padding, as in datetime.date.isoformat. -/
def pad4 (n : Nat) : String :=
  String.mk [digitChar (n / 1000 % 10), digitChar (n / 100 % 10),
             digitChar (n / 10 % 10), digitChar (n % 10)]

/-- Canonical ISO rendering YYYY-MM-DD produced by datetime.date.isoformat. -/
def isoString (d : DateD) : String := pad4 d.year ++ "-" ++ pad2 d.month ++ "-" ++ pad2 d.day

/-- Model of the CPython strptime regex fragment for the day and month fields:
day matches `3[01]|[12]\d|0[1-9]|[1-9]` (maxv = 31), month matches
`1[0-2]|0[1-9]|[1-9]` (maxv = 12).  The two-digit alternatives jointly match
exactly the in-range two-digit strings; otherwise a single leading nonzero
digit matches.  The pattern character that follows a day or month field is a
non-digit separator, so the two-digit and one-digit alternatives can never
both extend to a full match and this deterministic choice agrees with regex
backtracking. -/
def parse2or1 (maxv : Nat) : List Char → Option (Nat × List Char)
  | [] => none
  | c1 :: rest1 =>
    if c1.isDigit then
      match rest1 with
      | c2 :: rest2 =>
        if c2.isDigit then
          if 1 ≤ digVal c1 * 10 + digVal c2 ∧ digVal c1 * 10 + digVal c2 ≤ maxv then
            some (digVal c1 * 10 + digVal c2, rest2)
          else if 1 ≤ digVal c1 then some (digVal c1, c2 :: rest2) else none
        else if 1 ≤ digVal c1 then some (digVal c1, c2 :: rest2) else none
      | [] => if 1 ≤ digVal c1 then some (digVal c1, []) else none
    else none

/-- Model of the CPython strptime regex fragment for %Y: exactly four digits. -/
def parseYear4 : List Char → Option (Nat × List Char)
  | c1 :: c2 :: c3 :: c4 :: rest =>
    if c1.isDigit ∧ c2.isDigit ∧ c3.isDigit ∧ c4.isDigit then
      some (digVal c1 * 1000 + digVal c2 * 100 + digVal c3 * 10 + digVal c4, rest)
    else none
  | _ => none

/-- Model of datetime.strptime(s, "%d<sep>%m<sep>%Y").date(): the whole string
must be consumed and the resulting date must be constructible (otherwise
strptime or the date constructor raises, which the source catches). -/
def strptimeDMY (sep : Char) (s : String) : Option DateD :=
  match parse2or1 31 s.toList with
  | none => none
  | some (d, r1) =>
    match r1 with
    | [] => none
    | c :: r2 =>
      if c = sep then
        match parse2or1 12 r2 with
        | none => none
        | some (m, r3) =>
          match r3 with
          | [] => none
          | c2 :: r4 =>
            if c2 = sep then
              match parseYear4 r4 with
              | none => none
              | some (y, r5) =>
                if r5 = [] ∧ (DateD.mk y m d).valid then some ⟨y, m, d⟩ else none
            else none
      else none

/-- Model of Python datetime.fromisoformat for a plain date string: the
canonical zero-padded YYYY-MM-DD form of a valid date.  Used both by
main.py view construction and as the model of the SQLite date() parse of
the stored date strings (which in this program are either canonical ISO
strings or verbatim unparsed user strings). -/
def parseIso (s : String) : Option DateD :=
  match s.toList with
  | [y1, y2, y3, y4, h1, m1, m2, h2, d1, d2] =>
    if y1.isDigit ∧ y2.isDigit ∧ y3.isDigit ∧ y4.isDigit ∧ h1 = '-' ∧
       m1.isDigit ∧ m2.isDigit ∧ h2 = '-' ∧ d1.isDigit ∧ d2.isDigit then
      let dt : DateD := ⟨digVal y1 * 1000 + digVal y2 * 100 + digVal y3 * 10 + digVal y4,
                         digVal m1 * 10 + digVal m2, digVal d1 * 10 + digVal d2⟩
      if dt.valid then some dt else none
    else none
  | _ => none

/-- Argument accepted by backend.add_expense for the date: a native
datetime.date (or datetime, whose .date() is taken) or a string. -/
inductive DateArg
  | native (d : DateD)
  | str (s : String)

/-- Date normalization of backend.add_expense lines 173-185: native dates are
stored in ISO form; strings are tried against "%d-%m-%Y" then "%d/%m/%Y",
the first success is stored in ISO form, and otherwise the string is stored
verbatim. -/
def normalizeDate : DateArg → String
  | .native d => isoString d
  | .str s =>
    match strptimeDMY '-' s with
    | some d => isoString d
    | none =>
      match strptimeDMY '/' s with
      | some d => isoString d
      | none => s

/-! ## Data model: the three SQLite tables of backend.init_db -/

/-- Row of the members table: id INTEGER PRIMARY KEY AUTOINCREMENT,
name TEXT NOT NULL UNIQUE, earning_status INTEGER, earnings REAL. -/
structure Member where
  id : Nat
  name : String
  earning_status : Bool
  earnings : ℚ
deriving DecidableEq

/-- Row of the transactions table. -/
structure Txn where
  id : Nat
  value : ℚ
  category : String
  description : String
  date : String
  frequency : String
  paid_by : String
deriving DecidableEq

/-- The database state.  seqMembers and seqTxns model the AUTOINCREMENT
sequences: the next assigned id is seq + 1 and ids are never reused.
The categories table is written but never read by any operation the
claims concern, so it is omitted. -/
structure DB where
  members : List Member
  seqMembers : Nat
  transactions : List Txn
  seqTxns : Nat
deriving DecidableEq

/-! ## Backend operations (src/backend.py class Backend) -/

/-- Model of Python str.strip(): leading and trailing whitespace removed
(implemented structurally at the character level so that proofs can
evaluate it). -/
def pyStrip (s : String) : String :=
  String.mk (((s.data.dropWhile Char.isWhitespace).reverse.dropWhile Char.isWhitespace).reverse)

/-- Model of Python str.lower() on the names this program compares. -/
def pyLower (s : String) : String := String.mk (s.data.map Char.toLower)

/-- backend.add_family_member: strips the name, rejects an empty name, then
INSERT OR REPLACE keyed on the UNIQUE name column (BINARY collation, so the
match is exact and case-sensitive): any row with the same name is deleted and
a fresh row with a newly assigned id is inserted; the id selected back by
name is that new id. -/
def DB.add_family_member (db : DB) (name : String) (earning_status : Bool)
    (earnings : ℚ) : Except String (Nat × DB) :=
  let name := pyStrip name
  if name = "" then .error "Name cannot be empty"
  else
    let newId := db.seqMembers + 1
    .ok (newId,
      { db with
        members := db.members.filter (fun m => ¬ m.name = name) ++
          [⟨newId, name, earning_status, earnings⟩],
        seqMembers := newId })

/-- Ordering used by get_members: ORDER BY name (BINARY collation; on the
UTF-8 strings this is code-point order). -/
def memberLe (a b : Member) : Prop := a.name ≤ b.name

instance : DecidableRel memberLe := fun a b => inferInstanceAs (Decidable (a.name ≤ b.name))

/-- backend.get_members: all member rows ordered by name. -/
def DB.get_members (db : DB) : List Member := db.members.insertionSort memberLe

/-- backend.delete_family_member: DELETE FROM members WHERE id = ?; returns
whether any row was removed (rowcount > 0). -/
def DB.delete_family_member (db : DB) (member_id : Nat) : Bool × DB :=
  let remaining := db.members.filter (fun m => ¬ m.id = member_id)
  (decide (remaining.length < db.members.length), { db with members := remaining })

/-- backend.update_family_member: UPDATE members SET ... WHERE id = ?;
returns whether any row matched. -/
def DB.update_family_member (db : DB) (member_id : Nat) (earning_status : Bool)
    (earnings : ℚ) : Bool × DB :=
  (db.members.any (fun m => m.id = member_id),
   { db with
     members := db.members.map (fun m =>
       if m.id = member_id then
         { m with earning_status := earning_status, earnings := earnings }
       else m) })

/-- backend.calculate_total_earnings: SUM(earnings) over rows with
earning_status = 1 (NULL sum coalesced to 0). -/
def DB.calculate_total_earnings (db : DB) : ℚ :=
  ((db.members.filter (fun m => m.earning_status)).map (fun m => m.earnings)).sum

/-- backend.add_expense: rejects a zero or absent value and an
empty/whitespace-only category, normalizes the date, applies the frequency
default for a falsy (empty) frequency string, and inserts a fresh row. -/
def DB.add_expense (db : DB) (value : Option ℚ) (category description : String)
    (dateArg : DateArg) (frequency : String) (paid_by : String) :
    Except String (Nat × DB) :=
  match value with
  | none => .error "Value cannot be zero"
  | some v =>
    if v = 0 then .error "Value cannot be zero"
    else if pyStrip category = "" then .error "Please choose a category"
    else
      let dateStr := normalizeDate dateArg
      let freq := if frequency = "" then "One-time" else frequency
      let newId := db.seqTxns + 1
      .ok (newId,
        { db with
          transactions := db.transactions ++
            [⟨newId, v, category, description, dateStr, freq, paid_by⟩],
          seqTxns := newId })

/-- Sort key for ORDER BY date(date) DESC: SQLite date() yields the ISO text
for a parseable stored date (compared as text, which on canonical ISO agrees
with chronological order, modelled numerically) and NULL otherwise; NULL is
smaller than every text value. -/
def txnDateKey (t : Txn) : Nat :=
  match parseIso t.date with
  | some d => d.year * 10000 + d.month * 100 + d.day + 1
  | none => 0

/-- Ordering of get_expense_log: ORDER BY date(date) DESC, id DESC. -/
def logRel (a b : Txn) : Prop :=
  txnDateKey b < txnDateKey a ∨ (txnDateKey a = txnDateKey b ∧ b.id ≤ a.id)

instance : DecidableRel logRel := fun a b =>
  inferInstanceAs (Decidable (txnDateKey b < txnDateKey a ∨
    (txnDateKey a = txnDateKey b ∧ b.id ≤ a.id)))

/-- Model of the optional range predicates `date(date) >= date(?)` and
`date(date) <= date(?)`: a NULL on either side makes the comparison NULL,
hence not selected.  main.py and export always call with no range. -/
def inRange (t : Txn) (start_date end_date : Option String) : Bool :=
  (match start_date with
   | none => true
   | some sd =>
     match parseIso t.date, parseIso sd with
     | some a, some b =>
       decide (b.year * 10000 + b.month * 100 + b.day ≤ a.year * 10000 + a.month * 100 + a.day)
     | _, _ => false) &&
  (match end_date with
   | none => true
   | some ed =>
     match parseIso t.date, parseIso ed with
     | some a, some b =>
       decide (a.year * 10000 + a.month * 100 + a.day ≤ b.year * 10000 + b.month * 100 + b.day)
     | _, _ => false)

/-- backend.get_expense_log: the transactions of the optional date range,
most recent first. -/
def DB.get_expense_log (db : DB) (start_date end_date : Option String) : List Txn :=
  (db.transactions.filter (fun t => inRange t start_date end_date)).insertionSort logRel

/-- Aggregated row of get_aggregated_expenses. -/
structure AggEntry where
  category : String
  value : ℚ
  description : String
deriving DecidableEq

/-- Display substitution `r[0] or "Miscellaneous"` applied to the category of
an aggregated row (a falsy, i.e. empty, category is displayed as
Miscellaneous). -/
def displayCat (c : String) : String := if c = "" then "Miscellaneous" else c

/-- The GROUP_CONCAT separator used by get_aggregated_expenses. -/
def sepDescs : List Char := [' ', '|', '|', '|', ' ']

/-- Joining with the separator, as GROUP_CONCAT(description, " ||| ")
concatenates the matching rows in storage order. -/
def joinSep : List (List Char) → List Char
  | [] => []
  | [d] => d
  | d :: e :: ds => d ++ sepDescs ++ joinSep (e :: ds)

/-- Left-to-right non-overlapping split on the separator, as Python
str.split(" ||| "). -/
def splitDescs : List Char → List (List Char)
  | [] => [[]]
  | ' ' :: '|' :: '|' :: '|' :: ' ' :: rest => [] :: splitDescs rest
  | c :: rest =>
    match splitDescs rest with
    | [] => [[c]]
    | p :: ps => (c :: p) :: ps

/-- Model of GROUP_CONCAT(description, " ||| ") followed by taking the last
" ||| "-separated piece (the source splits the concatenation and takes the
final element, the empty string when the concatenation is empty). -/
def lastDesc (descs : List String) : String :=
  let cs := joinSep (descs.map String.data)
  if cs = [] then "" else String.mk ((splitDescs cs).getLastD [])

/-- Ordering of get_aggregated_expenses: ORDER BY total DESC. -/
def aggLe (a b : AggEntry) : Prop := b.value ≤ a.value

instance : DecidableRel aggLe := fun a b => inferInstanceAs (Decidable (b.value ≤ a.value))

instance : IsTotal AggEntry aggLe := ⟨fun a b => le_total b.value a.value⟩

instance : IsTrans AggEntry aggLe := ⟨fun _ _ _ hab hbc => le_trans hbc hab⟩

/-- One aggregated row of GROUP BY category: SUM(value) over the matching
transactions and the last-concatenated description. -/
def DB.aggRow (db : DB) (c : String) : AggEntry :=
  { category := displayCat c,
    value := ((db.transactions.filter (fun t => t.category = c)).map (fun t => t.value)).sum,
    description :=
      lastDesc ((db.transactions.filter (fun t => t.category = c)).map (fun t => t.description)) }

/-- The GROUP BY category result rows, one per distinct category. -/
def DB.aggRows (db : DB) : List AggEntry :=
  ((db.transactions.map (fun t => t.category)).dedup).map db.aggRow

/-- backend.get_aggregated_expenses: GROUP BY category with SUM(value) and the
last-concatenated description, ordered by total value descending. -/
def DB.get_aggregated_expenses (db : DB) : List AggEntry :=
  db.aggRows.insertionSort aggLe

/-- backend.delete_expense: DELETE FROM transactions WHERE category = ?
(exact, case-sensitive BINARY comparison); returns the rowcount. -/
def DB.delete_expense (db : DB) (category : String) : Nat × DB :=
  ((db.transactions.filter (fun t => t.category = category)).length,
   { db with transactions := db.transactions.filter (fun t => ¬ t.category = category) })

/-- backend.delete_log_entry: DELETE FROM transactions WHERE id = ?. -/
def DB.delete_log_entry (db : DB) (txn_id : Nat) : Bool × DB :=
  let remaining := db.transactions.filter (fun t => ¬ t.id = txn_id)
  (decide (remaining.length < db.transactions.length),
   { db with transactions := remaining })

/-- backend.calculate_total_expenditure: SUM(value) over all transactions. -/
def DB.calculate_total_expenditure (db : DB) : ℚ :=
  (db.transactions.map (fun t => t.value)).sum

/-! ## CSV export (backend.export_csv, Python csv module, excel dialect) -/

/-- QUOTE_MINIMAL trigger: a field is quoted when it contains the delimiter,
the quote character, or a line-terminator character. -/
def csvNeedsQuote (f : String) : Bool :=
  f.toList.any (fun c => c = ',' || c = '"' || c = '\r' || c = '\n')

/-- Doubling of embedded quote characters inside a quoted field. -/
def csvEscapeInner (cs : List Char) : List Char :=
  cs.flatMap (fun c => if c = '"' then ['"', '"'] else [c])

/-- One encoded field, quoted exactly when QUOTE_MINIMAL requires it. -/
def csvField (f : String) : List Char :=
  if csvNeedsQuote f then '"' :: (csvEscapeInner f.toList ++ ['"'])
  else f.toList

/-- One encoded row: fields joined by the delimiter. -/
def csvRowChars : List String → List Char
  | [] => []
  | [f] => csvField f
  | f :: g :: fs => csvField f ++ ',' :: csvRowChars (g :: fs)

/-- Full encoded output of csv.writer: each row followed by the default
line terminator CRLF. -/
def csvEncodeRows (rows : List (List String)) : List Char :=
  rows.flatMap (fun r => csvRowChars r ++ ['\r', '\n'])

/-- States of the csv.reader field scanner. -/
inductive CsvMode
  | start
  | unquoted
  | quoted
  | afterQuote
  | sawCR
deriving DecidableEq

/-- Scanner state: current mode, characters of the current field, fields of
the current row, completed rows. -/
structure CsvState where
  mode : CsvMode
  field : List Char
  row : List String
  rows : List (List String)
deriving DecidableEq

/-- Transition of the csv.reader scanner on one character, modes other than
sawCR (Python csv.reader with the excel dialect, strict = False, doublequote;
a bare row terminator on an empty line yields an empty row). -/
def csvProcess (st : CsvState) (c : Char) : CsvState :=
  match st.mode with
  | .start =>
    if c = '"' then { st with mode := .quoted }
    else if c = ',' then { st with row := st.row ++ [""], field := [] }
    else if c = '\r' ∨ c = '\n' then
      let m := if c = '\r' then CsvMode.sawCR else CsvMode.start
      if st.row = [] then { mode := m, field := [], row := [], rows := st.rows ++ [[]] }
      else { mode := m, field := [], row := [], rows := st.rows ++ [st.row ++ [""]] }
    else { st with mode := .unquoted, field := [c] }
  | .unquoted =>
    if c = ',' then
      { st with mode := .start, row := st.row ++ [String.mk st.field], field := [] }
    else if c = '\r' ∨ c = '\n' then
      { mode := if c = '\r' then .sawCR else .start, field := [], row := [],
        rows := st.rows ++ [st.row ++ [String.mk st.field]] }
    else { st with field := st.field ++ [c] }
  | .quoted =>
    if c = '"' then { st with mode := .afterQuote }
    else { st with field := st.field ++ [c] }
  | .afterQuote =>
    if c = '"' then { st with mode := .quoted, field := st.field ++ ['"'] }
    else if c = ',' then
      { st with mode := .start, row := st.row ++ [String.mk st.field], field := [] }
    else if c = '\r' ∨ c = '\n' then
      { mode := if c = '\r' then .sawCR else .start, field := [], row := [],
        rows := st.rows ++ [st.row ++ [String.mk st.field]] }
    else { st with mode := .unquoted, field := st.field ++ [c] }
  | .sawCR => st

/-- Full scanner step: after a CR, a following LF completes the CRLF
terminator; any other character is processed at the start of a fresh row. -/
def csvStep (st : CsvState) (c : Char) : CsvState :=
  match st.mode with
  | .sawCR =>
    if c = '\n' then { st with mode := .start }
    else csvProcess { st with mode := .start } c
  | _ => csvProcess st c

/-- End of input: a pending partial row is emitted. -/
def csvFinish (st : CsvState) : List (List String) :=
  match st.mode with
  | .start => if st.row = [] then st.rows else st.rows ++ [st.row ++ [String.mk st.field]]
  | .sawCR => st.rows
  | _ => st.rows ++ [st.row ++ [String.mk st.field]]

/-- Parsing the delimited export: run the scanner over the whole text. -/
def parseCsv (s : String) : List (List String) :=
  csvFinish (s.toList.foldl csvStep ⟨.start, [], [], []⟩)

/-- Header row written by backend.export_csv. -/
def csvHeader : List String := ["Date", "Paid By", "Category", "Description", "Value", "Frequency"]

/-- Textual rendering of a stored REAL value in the export.  The source
writes Python str(float); in this embedding REAL values are rationals and
this is their rendering. -/
def ratStr (q : ℚ) : String := toString q

/-- The six cells written for one transaction, in the fixed column order
date, payer, category, description, value, frequency. -/
def txnCsvRow (t : Txn) : List String :=
  [t.date, t.paid_by, t.category, t.description, ratStr t.value, t.frequency]

/-- backend.export_csv: header row plus one row per log entry, in log order. -/
def DB.export_csv (db : DB) (start_date end_date : Option String) : String :=
  String.mk (csvEncodeRows (csvHeader :: (db.get_expense_log start_date end_date).map txnCsvRow))

/-! ## Tracker layer (src/main.py) -/

/-- A date value as held by a main.py Expense object: a parsed
datetime.date when one of the recognized formats applied, otherwise the
original string (silent fallback). -/
inductive DateVal
  | dt (d : DateD)
  | raw (s : String)
deriving DecidableEq

/-- Date normalization of the Expense constructor (composed with the
pre-parsing in FamilyExpenseTracker.refresh, which tries the same formats in
the same net order): fromisoformat, then "%d-%m-%Y", then "%d/%m/%Y", and
otherwise the string itself. -/
def expenseDate : DateArg → DateVal
  | .native d => .dt d
  | .str s =>
    match parseIso s with
    | some d => .dt d
    | none =>
      match strptimeDMY '-' s with
      | some d => .dt d
      | none =>
        match strptimeDMY '/' s with
        | some d => .dt d
        | none => .raw s

/-- A main.py Expense object (used for both the aggregated view and the
chronological log view). -/
structure ExpenseV where
  id : Option Nat
  value : ℚ
  category : String
  description : String
  dateV : DateVal
  frequency : String
  paid_by : String
deriving DecidableEq

/-- Log view entry built by refresh from a raw log row (the Expense
constructor replaces a falsy, i.e. empty, description by a placeholder). -/
def mkLogEntry (t : Txn) : ExpenseV :=
  { id := some t.id, value := t.value, category := t.category,
    description := if t.description = "" then "No description" else t.description,
    dateV := expenseDate (.str t.date),
    frequency := t.frequency, paid_by := t.paid_by }

/-- Aggregated view entry built by refresh from an aggregated row: the date
is the current day, frequency One-time, payer Unknown, no id. -/
def mkAggExpense (today : DateD) (a : AggEntry) : ExpenseV :=
  { id := none, value := a.value, category := a.category,
    description := if a.description = "" then "No description" else a.description,
    dateV := .dt today, frequency := "One-time", paid_by := "Unknown" }

/-- FamilyExpenseTracker: the backend plus the three cached views. -/
structure Tracker where
  db : DB
  members : List Member
  expense_list : List ExpenseV
  expense_log : List ExpenseV
deriving DecidableEq

/-- The three views a full reload from storage produces (refresh lines
92-118 of main.py): member list, aggregated-by-category list, chronological
log. -/
def viewsOf (today : DateD) (db : DB) :
    List Member × List ExpenseV × List ExpenseV :=
  (db.get_members,
   (db.get_aggregated_expenses).map (mkAggExpense today),
   (db.get_expense_log none none).map mkLogEntry)

/-- FamilyExpenseTracker.refresh: recompute all three views from storage. -/
def Tracker.refresh (today : DateD) (t : Tracker) : Tracker :=
  { t with
    members := (viewsOf today t.db).1,
    expense_list := (viewsOf today t.db).2.1,
    expense_log := (viewsOf today t.db).2.2 }

/-- FamilyExpenseTracker.__init__ on a given storage state. -/
def Tracker.init (today : DateD) (db : DB) : Tracker :=
  Tracker.refresh today ⟨db, [], [], []⟩

/-- FamilyExpenseTracker.get_member_by_name: case-insensitive linear lookup
in the cached member list. -/
def Tracker.get_member_by_name (t : Tracker) (name : String) : Option Member :=
  t.members.find? (fun m => pyLower m.name = pyLower name)

/-- Argument shapes accepted by the mutating member operations: an object
with an optional id and a name, a raw integer id, or a raw name string. -/
inductive MemberRef
  | obj (oid : Option Nat) (name : String)
  | byId (i : Nat)
  | byName (s : String)

/-- Resolution of a member argument to an id, following the Python
truthiness of `getattr(member, "id", None) or ...`: an object id of None or
0 falls through to the name, which is resolved case-insensitively against
the cached member list. -/
def Tracker.resolveMemberId (t : Tracker) : MemberRef → Option Nat
  | .obj oid nm =>
    match oid with
    | some i => if i = 0 then (t.get_member_by_name nm).map (fun m => m.id) else some i
    | none => (t.get_member_by_name nm).map (fun m => m.id)
  | .byId i => some i
  | .byName s => (t.get_member_by_name s).map (fun m => m.id)

/-- FamilyExpenseTracker.add_family_member: validate the name, delegate the
stripped name to the backend, then refresh. -/
def Tracker.add_family_member (today : DateD) (t : Tracker) (name : String)
    (earning_status : Bool) (earnings : ℚ) : Except String (Nat × Tracker) :=
  if pyStrip name = "" then .error "Name field cannot be empty"
  else
    match t.db.add_family_member (pyStrip name) earning_status earnings with
    | .error e => .error e
    | .ok (i, db1) => .ok (i, Tracker.refresh today { t with db := db1 })

/-- FamilyExpenseTracker.delete_family_member: resolve, delegate when the id
resolved, and refresh in every case. -/
def Tracker.delete_family_member (today : DateD) (t : Tracker) (ref : MemberRef) :
    Bool × Tracker :=
  match t.resolveMemberId ref with
  | none => (false, Tracker.refresh today t)
  | some i =>
    let r := t.db.delete_family_member i
    (r.1, Tracker.refresh today { t with db := r.2 })

/-- FamilyExpenseTracker.update_family_member: an unresolved reference
returns False early without refreshing; otherwise delegate and refresh. -/
def Tracker.update_family_member (today : DateD) (t : Tracker) (ref : MemberRef)
    (earning_status : Bool) (earnings : ℚ) : Bool × Tracker :=
  match t.resolveMemberId ref with
  | none => (false, t)
  | some i =>
    let r := t.db.update_family_member i earning_status earnings
    (r.1, Tracker.refresh today { t with db := r.2 })

/-- FamilyExpenseTracker.add_expense: validate (the same checks the backend
repeats), delegate, refresh. -/
def Tracker.add_expense (today : DateD) (t : Tracker) (value : Option ℚ)
    (category description : String) (dateArg : DateArg)
    (frequency paid_by : String) : Except String (Nat × Tracker) :=
  match value with
  | none => .error "Value cannot be zero"
  | some v =>
    if v = 0 then .error "Value cannot be zero"
    else if pyStrip category = "" then .error "Please choose a category"
    else
      match t.db.add_expense (some v) category description dateArg frequency paid_by with
      | .error e => .error e
      | .ok (i, db1) => .ok (i, Tracker.refresh today { t with db := db1 })

/-- FamilyExpenseTracker.delete_expense: a falsy (absent or empty) category
returns 0 without touching storage; otherwise delete all transactions of the
category and refresh. -/
def Tracker.delete_expense (today : DateD) (t : Tracker) (category : String) :
    Nat × Tracker :=
  if category = "" then (0, t)
  else
    let r := t.db.delete_expense category
    (r.1, Tracker.refresh today { t with db := r.2 })

/-- FamilyExpenseTracker.delete_log_entry: an entry without an id raises;
otherwise delegate by id and refresh. -/
def Tracker.delete_log_entry (today : DateD) (t : Tracker) (oid : Option Nat) :
    Except String (Bool × Tracker) :=
  match oid with
  | none => .error "Log entry has no id. Cannot delete."
  | some i =>
    let r := t.db.delete_log_entry i
    .ok (r.1, Tracker.refresh today { t with db := r.2 })

/-- FamilyExpenseTracker.calculate_member_contribution: sum of the values of
the cached log entries whose payer equals the name (exact, case-sensitive
string equality). -/
def Tracker.calculate_member_contribution (t : Tracker) (member_name : String) : ℚ :=
  ((t.expense_log.filter (fun e => e.paid_by = member_name)).map (fun e => e.value)).sum

/-- The views-reflect-storage invariant: the three cached views equal the
views a fresh full reload from the current storage state would produce. -/
def Tracker.consistent (today : DateD) (t : Tracker) : Prop :=
  t.members = (viewsOf today t.db).1 ∧
  t.expense_list = (viewsOf today t.db).2.1 ∧
  t.expense_log = (viewsOf today t.db).2.2

instance (today : DateD) (t : Tracker) : Decidable (t.consistent today) :=
  inferInstanceAs (Decidable (_ ∧ _ ∧ _))

/-! ## General helper lemmas -/

/-- With no date range, the log is a permutation of the stored transactions. -/
theorem get_expense_log_perm (db : DB) :
    (db.get_expense_log none none).Perm db.transactions := by
  unfold DB.get_expense_log
  have hf : db.transactions.filter (fun t => inRange t none none) = db.transactions :=
    List.filter_eq_self.mpr (fun a _ => rfl)
  rw [hf]
  exact List.perm_insertionSort logRel db.transactions

/-- Splitting a list length by a predicate. -/
theorem length_filter_split {α : Type} (p : α → Bool) (l : List α) :
    (l.filter p).length + (l.filter (fun a => !(p a))).length = l.length := by
  induction l with
  | nil => rfl
  | cons a l ih => cases h : p a <;> simp [List.filter_cons, h] <;> omega

/-- Under the UNIQUE name constraint, a name that occurs occurs on exactly
one row. -/
theorem length_filter_name_eq_one (l : List Member) (n : String)
    (hwf : (l.map (fun m => m.name)).Nodup) (hex : ∃ m ∈ l, m.name = n) :
    (l.filter (fun m => m.name = n)).length = 1 := by
  induction l with
  | nil => rcases hex with ⟨m, hm, _⟩; cases hm
  | cons a l ih =>
    simp only [List.map_cons, List.nodup_cons] at hwf
    by_cases ha : a.name = n
    · have hrest : l.filter (fun m => m.name = n) = [] := by
        apply List.filter_eq_nil_iff.mpr
        intro b hb
        simp only [decide_eq_true_eq]
        intro hbn
        exact hwf.1 (ha ▸ hbn ▸ List.mem_map_of_mem (fun m => m.name) hb)
      simp [List.filter_cons, ha, hrest]
    · have hex2 : ∃ m ∈ l, m.name = n := by
        rcases hex with ⟨m, hm, hmn⟩
        rcases List.mem_cons.mp hm with rfl | hm2
        · exact absurd hmn ha
        · exact ⟨m, hm2, hmn⟩
      simp [List.filter_cons, ha, ih hwf.2 hex2]

/-- Normal form of a successful member add. -/
theorem add_family_member_ok (db : DB) (name : String) (es : Bool) (e : ℚ)
    (hne : ¬ pyStrip name = "") :
    db.add_family_member name es e =
      .ok (db.seqMembers + 1,
        { db with
          members := db.members.filter (fun m => ¬ m.name = pyStrip name) ++
            [⟨db.seqMembers + 1, pyStrip name, es, e⟩],
          seqMembers := db.seqMembers + 1 }) := by
  unfold DB.add_family_member
  simp [hne]

/-- Refreshing always restores the views-reflect-storage invariant. -/
theorem refresh_consistent (today : DateD) (t : Tracker) :
    (Tracker.refresh today t).consistent today :=
  ⟨rfl, rfl, rfl⟩

/-! ## Example states used by the witnesses -/

/-- A database holding the single member Asha (id 1). -/
def exDbAsha : DB := ⟨[⟨1, "Asha", true, 5000⟩], 1, [], 0⟩

/-- A database with two Food transactions paid by Asha and one Bills
transaction paid by Bob. -/
def exDbFood : DB :=
  ⟨[⟨1, "Asha", true, 5000⟩], 1,
   [⟨1, 1200, "Food", "groceries", "2024-01-10", "Monthly", "Asha"⟩,
    ⟨2, 800, "Food", "", "2024-01-15", "One-time", "Asha"⟩,
    ⟨3, 300, "Bills", "electricity", "2024-01-12", "One-time", "Bob"⟩], 3⟩

/-- An example current day. -/
def exToday : DateD := ⟨2024, 1, 20⟩

/-- The tracker after a fresh construction over exDbFood. -/
def exTracker : Tracker := Tracker.init exToday exDbFood

/-! ## Claims -/

/-- C2: for every mutating tracker operation (add/update/delete member, add
expense, delete by category, delete log entry) on a tracker whose views
reflect its storage, when the operation returns, the three cached views
(member list, aggregated-by-category list, chronological log) equal exactly
the views a fresh full reload from storage would produce for the
post-mutation storage state. -/
theorem C2_views_reflect_storage (today : DateD) (t : Tracker)
    (h : t.consistent today) :
    (∀ name es e i t2,
      t.add_family_member today name es e = .ok (i, t2) → t2.consistent today) ∧
    (∀ ref es e, ((t.update_family_member today ref es e).2).consistent today) ∧
    (∀ ref, ((t.delete_family_member today ref).2).consistent today) ∧
    (∀ v cat desc dArg freq pb i t2,
      t.add_expense today v cat desc dArg freq pb = .ok (i, t2) → t2.consistent today) ∧
    (∀ cat, ((t.delete_expense today cat).2).consistent today) ∧
    (∀ oid b t2,
      t.delete_log_entry today oid = .ok (b, t2) → t2.consistent today) := by
  refine ⟨?_, ?_, ?_, ?_, ?_, ?_⟩
  · intro name es e i t2 hok
    unfold Tracker.add_family_member at hok
    split at hok
    · exact absurd hok (by simp)
    · rcases h2 : t.db.add_family_member (pyStrip name) es e with msg | ⟨i2, db2⟩ <;> rw [h2] at hok
      · exact absurd hok (by simp)
      · simp only [Except.ok.injEq, Prod.mk.injEq] at hok
        rw [← hok.2]
        exact refresh_consistent today _
  · intro ref es e
    unfold Tracker.update_family_member
    rcases h2 : t.resolveMemberId ref with _ | i
    · exact h
    · exact refresh_consistent today _
  · intro ref
    unfold Tracker.delete_family_member
    rcases h2 : t.resolveMemberId ref with _ | i
    · exact refresh_consistent today _
    · exact refresh_consistent today _
  · intro v cat desc dArg freq pb i t2 hok
    unfold Tracker.add_expense at hok
    rcases v with _ | v
    · exact absurd hok (by simp)
    · simp only at hok
      split at hok
      · exact absurd hok (by simp)
      · split at hok
        · exact absurd hok (by simp)
        · rcases h2 : t.db.add_expense (some v) cat desc dArg freq pb with msg | ⟨i2, db2⟩ <;>
            rw [h2] at hok
          · exact absurd hok (by simp)
          · simp only [Except.ok.injEq, Prod.mk.injEq] at hok
            rw [← hok.2]
            exact refresh_consistent today _
  · intro cat
    unfold Tracker.delete_expense
    by_cases hc : cat = ""
    · simpa [hc] using h
    · simpa [hc] using refresh_consistent today _
  · intro oid b t2 hok
    unfold Tracker.delete_log_entry at hok
    rcases oid with _ | i
    · exact absurd hok (by simp)
    · simp only [Except.ok.injEq, Prod.mk.injEq] at hok
      rw [← hok.2]
      exact refresh_consistent today _

/-- Witness for C2 at a concrete consistent tracker and a concrete
delete-by-category call. -/
theorem C2_views_reflect_storage_witness :
    exTracker.consistent exToday ∧
    ((exTracker.delete_expense exToday "Food").2).consistent exToday :=
  ⟨⟨rfl, rfl, rfl⟩,
   (C2_views_reflect_storage exToday exTracker ⟨rfl, rfl, rfl⟩).2.2.2.2.1 "Food"⟩

/-- C4: inserting a transaction whose value is zero or absent, or whose
category is empty or whitespace-only, raises a validation error at the
backend (and already at the tracker), and no transactions row is produced:
the operation never returns a post-insert storage state. -/
theorem C4_validation_error (db : DB) (value : Option ℚ)
    (category description : String) (dateArg : DateArg) (freq pb : String)
    (h : value = none ∨ value = some 0 ∨ pyStrip category = "") :
    (∃ msg, db.add_expense value category description dateArg freq pb = .error msg) ∧
    (∀ i db2, ¬ db.add_expense value category description dateArg freq pb = .ok (i, db2)) ∧
    (∀ today t, ∃ msg,
      Tracker.add_expense today t value category description dateArg freq pb = .error msg) := by
  have hmain : ∃ msg, db.add_expense value category description dateArg freq pb = .error msg := by
    rcases h with h | h | h
    · subst h; exact ⟨_, rfl⟩
    · subst h; exact ⟨"Value cannot be zero", by simp [DB.add_expense]⟩
    · rcases value with _ | v
      · exact ⟨_, rfl⟩
      · by_cases hv : v = 0
        · exact ⟨"Value cannot be zero", by simp [DB.add_expense, hv]⟩
        · exact ⟨"Please choose a category", by simp [DB.add_expense, hv, h]⟩
  have htrk : ∀ today t, ∃ msg,
      Tracker.add_expense today t value category description dateArg freq pb = .error msg := by
    intro today t
    rcases h with h | h | h
    · subst h; exact ⟨_, rfl⟩
    · subst h; exact ⟨"Value cannot be zero", by simp [Tracker.add_expense]⟩
    · rcases value with _ | v
      · exact ⟨_, rfl⟩
      · by_cases hv : v = 0
        · exact ⟨"Value cannot be zero", by simp [Tracker.add_expense, hv]⟩
        · exact ⟨"Please choose a category", by simp [Tracker.add_expense, hv, h]⟩
  refine ⟨hmain, ?_, htrk⟩
  intro i db2 hok
  rcases hmain with ⟨msg, hmsg⟩
  rw [hmsg] at hok
  exact absurd hok (by simp)

/-- Witness for C4 at a concrete zero-value insert. -/
theorem C4_validation_error_witness :
    ((some (0 : ℚ)) = none ∨ (some (0 : ℚ)) = some 0 ∨ pyStrip "Food" = "") ∧
    (∃ msg, exDbFood.add_expense (some 0) "Food" "d" (.str "2024-01-01") "One-time" "Asha" =
      .error msg) :=
  ⟨Or.inr (Or.inl rfl),
   (C4_validation_error exDbFood (some 0) "Food" "d" (.str "2024-01-01") "One-time" "Asha"
      (Or.inr (Or.inl rfl))).1⟩

/-- C7: deleting a member removes only that member row: the transactions
table, and hence every log entry (including those whose payer is the deleted
member's name), is unchanged; no cascade. -/
theorem C7_no_cascade (db : DB) (i : Nat) :
    ((db.delete_family_member i).2.transactions = db.transactions) ∧
    ((db.delete_family_member i).2.get_expense_log none none = db.get_expense_log none none) ∧
    ((db.delete_family_member i).2.get_aggregated_expenses = db.get_aggregated_expenses) ∧
    ((db.delete_family_member i).2.members = db.members.filter (fun m => ¬ m.id = i)) :=
  ⟨rfl, rfl, rfl, rfl⟩

/-- C9: member contribution is the sum of the values of exactly those cached
log entries whose payer equals the name case-sensitively; with no matching
entry the result is 0. -/
theorem C9_member_contribution (t : Tracker) (name : String) :
    t.calculate_member_contribution name =
      ((t.expense_log.filter (fun e => e.paid_by = name)).map (fun e => e.value)).sum ∧
    ((∀ e ∈ t.expense_log, ¬ e.paid_by = name) →
      t.calculate_member_contribution name = 0) := by
  refine ⟨rfl, ?_⟩
  intro hall
  unfold Tracker.calculate_member_contribution
  rw [List.filter_eq_nil_iff.mpr (by simpa using hall)]
  rfl

/-- Witness for C9 at a payer with no entries in a concrete log. -/
theorem C9_member_contribution_witness :
    (∀ e ∈ exTracker.expense_log, ¬ e.paid_by = "Zoe") ∧
    exTracker.calculate_member_contribution "Zoe" = 0 :=
  ⟨by decide, (C9_member_contribution exTracker "Zoe").2 (by decide)⟩

/-- C3: after a reload, the aggregated total for every category present in
storage equals the sum of the values of the raw-log transactions of that
category, and the aggregated entries are ordered by total value descending.
The hypothesis that stored categories are nonempty is the data-model
invariant maintained by the insert validation (an empty category cannot be
inserted). -/
theorem C3_aggregation_invariant (db : DB)
    (hcat : ∀ t ∈ db.transactions, ¬ t.category = "") (c : String)
    (hc : ∃ t ∈ db.transactions, t.category = c) :
    (∃ e ∈ db.get_aggregated_expenses, e.category = c) ∧
    (∀ e ∈ db.get_aggregated_expenses, e.category = c →
      e.value = (((db.get_expense_log none none).filter
        (fun t => t.category = c)).map (fun t => t.value)).sum) ∧
    db.get_aggregated_expenses.Pairwise aggLe := by
  have hperm := (get_expense_log_perm db).filter (fun t => decide (t.category = c))
  have hsum : (((db.get_expense_log none none).filter
        (fun t => t.category = c)).map (fun t => t.value)).sum
      = ((db.transactions.filter (fun t => t.category = c)).map (fun t => t.value)).sum :=
    (hperm.map (fun t => t.value)).sum_eq
  rcases hc with ⟨t0, ht0, hcat0⟩
  have hmem : c ∈ (db.transactions.map (fun t => t.category)).dedup :=
    List.mem_dedup.mpr (List.mem_map.mpr ⟨t0, ht0, hcat0⟩)
  have hcne : ¬ c = "" := hcat0 ▸ hcat t0 ht0
  refine ⟨⟨db.aggRow c, ?_, ?_⟩, ?_, ?_⟩
  · rw [DB.get_aggregated_expenses, List.mem_insertionSort, DB.aggRows]
    exact List.mem_map_of_mem db.aggRow hmem
  · simp [DB.aggRow, displayCat, hcne]
  · intro e he hec
    rw [DB.get_aggregated_expenses, List.mem_insertionSort, DB.aggRows] at he
    rcases List.mem_map.mp he with ⟨c2, hc2, rfl⟩
    have hc2ne : ¬ c2 = "" := by
      rcases List.mem_map.mp (List.mem_dedup.mp hc2) with ⟨t2, ht2, rfl⟩
      exact hcat t2 ht2
    have hcc : c2 = c := by simpa [DB.aggRow, displayCat, hc2ne] using hec
    subst hcc
    rw [hsum]
    rfl
  · exact List.sorted_insertionSort aggLe db.aggRows

/-- Witness for C3 at a concrete store: the Food category with two raw
transactions. -/
theorem C3_aggregation_invariant_witness :
    ((∀ t ∈ exDbFood.transactions, ¬ t.category = "") ∧
      (∃ t ∈ exDbFood.transactions, t.category = "Food")) ∧
    ((∃ e ∈ exDbFood.get_aggregated_expenses, e.category = "Food") ∧
      (∀ e ∈ exDbFood.get_aggregated_expenses, e.category = "Food" →
        e.value = (((exDbFood.get_expense_log none none).filter
          (fun t => t.category = "Food")).map (fun t => t.value)).sum) ∧
      exDbFood.get_aggregated_expenses.Pairwise aggLe) :=
  ⟨⟨by decide, by decide⟩,
   C3_aggregation_invariant exDbFood (by decide) "Food" (by decide)⟩

/-- C5: delete-by-category removes exactly the transactions whose category
matches the argument exactly and case-sensitively, returns the number of
rows removed, and afterwards the aggregate query no longer lists that
category and the log contains no entry of that category.  The nonempty
category hypothesis is the same data-model invariant as in C3. -/
theorem C5_delete_by_category (db : DB)
    (hcat : ∀ t ∈ db.transactions, ¬ t.category = "") (c : String) :
    (db.delete_expense c).1 = (db.transactions.filter (fun t => t.category = c)).length ∧
    (db.delete_expense c).2.transactions = db.transactions.filter (fun t => ¬ t.category = c) ∧
    (db.delete_expense c).1 + (db.delete_expense c).2.transactions.length =
      db.transactions.length ∧
    (∀ e ∈ (db.delete_expense c).2.get_aggregated_expenses, ¬ e.category = c) ∧
    (∀ t ∈ (db.delete_expense c).2.get_expense_log none none, ¬ t.category = c) ∧
    (db.delete_expense c).2.members = db.members := by
  refine ⟨rfl, rfl, ?_, ?_, ?_, rfl⟩
  · have h3 : db.transactions.filter (fun t => !(decide (t.category = c))) =
        db.transactions.filter (fun t => ¬ t.category = c) := by simp
    have h2 := length_filter_split (fun t => decide (t.category = c)) db.transactions
    rw [h3] at h2
    exact h2
  · intro e he
    rw [DB.get_aggregated_expenses, List.mem_insertionSort, DB.aggRows] at he
    rcases List.mem_map.mp he with ⟨c2, hc2, rfl⟩
    rcases List.mem_map.mp (List.mem_dedup.mp hc2) with ⟨t2, ht2, rfl⟩
    have ht2db : t2 ∈ db.transactions := List.mem_of_mem_filter ht2
    have hc2ne : ¬ t2.category = "" := hcat t2 ht2db
    have hc2c : ¬ t2.category = c := by
      have := List.of_mem_filter ht2
      simpa using this
    simpa [DB.aggRow, displayCat, hc2ne] using hc2c
  · intro t ht
    have hmem := (get_expense_log_perm (db.delete_expense c).2).mem_iff.mp ht
    have := List.of_mem_filter hmem
    simpa using this

/-- Witness for C5 at a concrete store and the Food category. -/
theorem C5_delete_by_category_witness :
    (∀ t ∈ exDbFood.transactions, ¬ t.category = "") ∧
    ((exDbFood.delete_expense "Food").1 =
        (exDbFood.transactions.filter (fun t => t.category = "Food")).length ∧
      (exDbFood.delete_expense "Food").2.transactions =
        exDbFood.transactions.filter (fun t => ¬ t.category = "Food") ∧
      (exDbFood.delete_expense "Food").1 +
          (exDbFood.delete_expense "Food").2.transactions.length =
        exDbFood.transactions.length ∧
      (∀ e ∈ (exDbFood.delete_expense "Food").2.get_aggregated_expenses,
        ¬ e.category = "Food") ∧
      (∀ t ∈ (exDbFood.delete_expense "Food").2.get_expense_log none none,
        ¬ t.category = "Food") ∧
      (exDbFood.delete_expense "Food").2.members = exDbFood.members) :=
  ⟨by decide, C5_delete_by_category exDbFood (by decide) "Food"⟩

/-- Digit characters are digits. -/
theorem digitChar_isDigit {n : Nat} (h : n < 10) : (digitChar n).isDigit = true := by
  interval_cases n <;> decide

/-- Digit characters carry their value. -/
theorem digVal_digitChar {n : Nat} (h : n < 10) : digVal (digitChar n) = n := by
  interval_cases n <;> decide

/-- A digit character is never a non-digit separator. -/
theorem digitChar_ne {n : Nat} (h : n < 10) {sep : Char} (hsep : ¬ sep.isDigit = true) :
    ¬ digitChar n = sep := fun he => hsep (he ▸ digitChar_isDigit h)

/-- On a string whose first three characters are digits, the day field
consumes one or two of them, so the remainder still starts with a digit. -/
theorem parse2or1_digits3 (maxv : Nat) {a b c : Nat} (ha : a < 10) (hb : b < 10)
    (rest : List Char) (r : Nat × List Char)
    (hr : parse2or1 maxv (digitChar a :: digitChar b :: digitChar c :: rest) = some r) :
    r.2 = digitChar b :: digitChar c :: rest ∨ r.2 = digitChar c :: rest := by
  simp only [parse2or1, digitChar_isDigit ha, digitChar_isDigit hb, if_true] at hr
  split_ifs at hr with h1 h2
  · rcases Option.some.inj hr with rfl
    exact Or.inr rfl
  · rcases Option.some.inj hr with rfl
    exact Or.inl rfl

/-- The day-first formats never match a canonical ISO string: its four-digit
year blocks the day field, which is followed by a digit where the format
demands the separator. -/
theorem strptimeDMY_isoString_eq_none (sep : Char) (hsep : ¬ sep.isDigit = true)
    (d : DateD) : strptimeDMY sep (isoString d) = none := by
  have h1 : d.year / 1000 % 10 < 10 := Nat.mod_lt _ (by norm_num)
  have h2 : d.year / 100 % 10 < 10 := Nat.mod_lt _ (by norm_num)
  have h3 : d.year / 10 % 10 < 10 := Nat.mod_lt _ (by norm_num)
  have hlist : (isoString d).toList =
      digitChar (d.year / 1000 % 10) :: digitChar (d.year / 100 % 10) ::
      digitChar (d.year / 10 % 10) :: digitChar (d.year % 10) :: '-' ::
      (pad2 d.month).toList ++ '-' :: (pad2 d.day).toList := by
    simp [isoString, pad4, String.toList]
  unfold strptimeDMY
  rw [hlist]
  rcases hp : parse2or1 31 (digitChar (d.year / 1000 % 10) :: digitChar (d.year / 100 % 10) ::
      digitChar (d.year / 10 % 10) :: digitChar (d.year % 10) :: '-' ::
      (pad2 d.month).toList ++ '-' :: (pad2 d.day).toList) with _ | r
  · rfl
  · rcases r with ⟨dd, r1⟩
    rcases parse2or1_digits3 31 h1 h2 _ _ hp with hr2 | hr2 <;> simp only at hr2 <;>
      subst hr2 <;> simp [digitChar_ne h2 hsep, digitChar_ne h3 hsep]

/-- C8: a native date value is stored in canonical ISO form; a string
matching "%d-%m-%Y" or otherwise "%d/%m/%Y" (the first successfully parsed
format winning) is normalized to ISO form; a string already in canonical
ISO form is stored verbatim, i.e. in ISO form (the day-first formats cannot
match it); and a string matching no recognized format is stored verbatim
rather than rejected. -/
theorem C8_date_normalization :
    (∀ d : DateD, normalizeDate (.native d) = isoString d) ∧
    (∀ s d, strptimeDMY '-' s = some d → normalizeDate (.str s) = isoString d) ∧
    (∀ s d, strptimeDMY '-' s = none → strptimeDMY '/' s = some d →
      normalizeDate (.str s) = isoString d) ∧
    (∀ d : DateD, normalizeDate (.str (isoString d)) = isoString d) ∧
    (∀ s, strptimeDMY '-' s = none → strptimeDMY '/' s = none →
      normalizeDate (.str s) = s) := by
  refine ⟨fun d => rfl, ?_, ?_, ?_, ?_⟩
  · intro s d h
    simp only [normalizeDate, h]
  · intro s d h1 h2
    simp only [normalizeDate, h1, h2]
  · intro d
    simp only [normalizeDate, strptimeDMY_isoString_eq_none '-' (by decide) d,
               strptimeDMY_isoString_eq_none '/' (by decide) d]
  · intro s h1 h2
    simp only [normalizeDate, h1, h2]

/-- Witness for C8: a day-first string is normalized; an unparseable string
is stored verbatim. -/
theorem C8_date_normalization_witness :
    (strptimeDMY '-' "10-01-2024" = some ⟨2024, 1, 10⟩ ∧
      normalizeDate (.str "10-01-2024") = isoString ⟨2024, 1, 10⟩) ∧
    (strptimeDMY '-' "junk" = none ∧ strptimeDMY '/' "junk" = none ∧
      normalizeDate (.str "junk") = "junk") :=
  ⟨⟨by decide, C8_date_normalization.2.1 "10-01-2024" ⟨2024, 1, 10⟩ (by decide)⟩,
   ⟨by decide, by decide, C8_date_normalization.2.2.2.2 "junk" (by decide) (by decide)⟩⟩

/-- Strings rebuilt from their characters are unchanged. -/
theorem mk_toList (s : String) : String.mk s.toList = s := rfl

/-- Running the csv.reader scanner over a character list. -/
def runCsv (cs : List Char) (st : CsvState) : CsvState := cs.foldl csvStep st

theorem runCsv_append (a b : List Char) (st : CsvState) :
    runCsv (a ++ b) st = runCsv b (runCsv a st) := List.foldl_append ..

/-- A character that needs no quoting and is not the delimiter. -/
def plainChar (c : Char) : Prop := ¬ c = ',' ∧ ¬ c = '"' ∧ ¬ c = '\r' ∧ ¬ c = '\n'

/-- Characters of an unquoted field are plain. -/
theorem plain_of_needsQuote_false {f : String} (hq : csvNeedsQuote f = false) :
    ∀ c ∈ f.toList, plainChar c := by
  intro c hc
  have h := List.any_eq_false.mp hq c hc
  simp only [Bool.or_eq_true, decide_eq_true_eq, not_or] at h
  exact ⟨h.1.1.1, h.1.1.2, h.1.2, h.2⟩

/-- Plain characters accumulate into the current unquoted field. -/
theorem runCsv_unquoted (cs : List Char) (hcs : ∀ c ∈ cs, plainChar c)
    (fld : List Char) (row : List String) (rows : List (List String)) :
    runCsv cs ⟨.unquoted, fld, row, rows⟩ = ⟨.unquoted, fld ++ cs, row, rows⟩ := by
  induction cs generalizing fld with
  | nil => simp [runCsv]
  | cons c cs ih =>
    rcases hcs c (by simp) with ⟨h1, h2, h3, h4⟩
    have hstep : csvStep ⟨.unquoted, fld, row, rows⟩ c = ⟨.unquoted, fld ++ [c], row, rows⟩ := by
      simp [csvStep, csvProcess, h1, h3, h4]
    have hrun : runCsv (c :: cs) ⟨.unquoted, fld, row, rows⟩ =
        runCsv cs (csvStep ⟨.unquoted, fld, row, rows⟩ c) := rfl
    rw [hrun, hstep, ih (fun x hx => hcs x (by simp [hx])) (fld ++ [c])]
    simp

/-- A nonempty run of plain characters starting a field scans as one
unquoted field. -/
theorem runCsv_start_plain (c : Char) (cs : List Char) (h : plainChar c)
    (hcs : ∀ x ∈ cs, plainChar x) (row : List String) (rows : List (List String)) :
    runCsv (c :: cs) ⟨.start, [], row, rows⟩ = ⟨.unquoted, c :: cs, row, rows⟩ := by
  rcases h with ⟨h1, h2, h3, h4⟩
  have hstep : csvStep ⟨.start, [], row, rows⟩ c = ⟨.unquoted, [c], row, rows⟩ := by
    simp [csvStep, csvProcess, h1, h2, h3, h4]
  have hrun : runCsv (c :: cs) ⟨.start, [], row, rows⟩ =
      runCsv cs (csvStep ⟨.start, [], row, rows⟩ c) := rfl
  rw [hrun, hstep, runCsv_unquoted cs hcs [c] row rows]
  simp

/-- The quote-doubled body of a quoted field scans back to the original
characters. -/
theorem runCsv_quoted_inner (f : List Char) (acc : List Char) (row : List String)
    (rows : List (List String)) :
    runCsv (csvEscapeInner f) ⟨.quoted, acc, row, rows⟩ = ⟨.quoted, acc ++ f, row, rows⟩ := by
  induction f generalizing acc with
  | nil => simp [csvEscapeInner, runCsv]
  | cons c f ih =>
    have hdef : csvEscapeInner (c :: f) =
        (if c = '"' then ['"', '"'] else [c]) ++ csvEscapeInner f := List.flatMap_cons ..
    rw [hdef]
    by_cases hc : c = '"'
    · subst hc
      simp only [if_true]
      have h1 : csvStep ⟨.quoted, acc, row, rows⟩ '"' = ⟨.afterQuote, acc, row, rows⟩ := by
        simp [csvStep, csvProcess]
      have h2 : csvStep ⟨.afterQuote, acc, row, rows⟩ '"' =
          ⟨.quoted, acc ++ ['"'], row, rows⟩ := by
        simp [csvStep, csvProcess]
      have hrun : runCsv ['"', '"'] ⟨.quoted, acc, row, rows⟩ =
          csvStep (csvStep ⟨.quoted, acc, row, rows⟩ '"') '"' := rfl
      rw [runCsv_append, hrun, h1, h2, ih (acc ++ ['"'])]
      simp
    · simp only [hc, if_false]
      have h1 : csvStep ⟨.quoted, acc, row, rows⟩ c = ⟨.quoted, acc ++ [c], row, rows⟩ := by
        simp [csvStep, csvProcess, hc]
      have hrun : runCsv [c] ⟨.quoted, acc, row, rows⟩ =
          csvStep ⟨.quoted, acc, row, rows⟩ c := rfl
      rw [runCsv_append, hrun, h1, ih (acc ++ [c])]
      simp

/-- The scanner state reached after one encoded field at the start of a
field position. -/
def fieldEnd (f : String) (row : List String) (rows : List (List String)) : CsvState :=
  if csvNeedsQuote f then ⟨.afterQuote, f.toList, row, rows⟩
  else if f = "" then ⟨.start, [], row, rows⟩
  else ⟨.unquoted, f.toList, row, rows⟩

/-- Scanning one encoded field from the start of a field position. -/
theorem runCsv_field (f : String) (row : List String) (rows : List (List String)) :
    runCsv (csvField f) ⟨.start, [], row, rows⟩ = fieldEnd f row rows := by
  unfold csvField fieldEnd
  by_cases hq : csvNeedsQuote f
  · simp only [hq, if_true]
    have h0 : csvStep ⟨.start, [], row, rows⟩ '"' = ⟨.quoted, [], row, rows⟩ := by
      simp [csvStep, csvProcess]
    have hrun : runCsv ('"' :: (csvEscapeInner f.toList ++ ['"'])) ⟨.start, [], row, rows⟩ =
        runCsv (csvEscapeInner f.toList ++ ['"']) (csvStep ⟨.start, [], row, rows⟩ '"') := rfl
    rw [hrun, h0, runCsv_append, runCsv_quoted_inner]
    simp [runCsv, csvStep, csvProcess]
  · have hqf : csvNeedsQuote f = false := by simpa using hq
    rw [if_neg hq, if_neg hq]
    by_cases hf : f = ""
    · subst hf
      rw [if_pos rfl]
      rfl
    · rw [if_neg hf]
      cases hlist : f.toList with
      | nil =>
        have : f = "" := by rw [← mk_toList f, hlist]
        exact absurd this hf
      | cons c cs =>
        have hplain := plain_of_needsQuote_false hqf
        rw [hlist] at hplain
        exact runCsv_start_plain c cs (hplain c (by simp))
          (fun x hx => hplain x (by simp [hx])) row rows

/-- The delimiter commits the scanned field to the current row. -/
theorem csvStep_fieldEnd_comma (f : String) (row : List String)
    (rows : List (List String)) :
    csvStep (fieldEnd f row rows) ',' = ⟨.start, [], row ++ [f], rows⟩ := by
  unfold fieldEnd
  split_ifs with hq hf
  · simp [csvStep, csvProcess, mk_toList]
  · subst hf
    simp [csvStep, csvProcess]
  · simp [csvStep, csvProcess, mk_toList]

/-- The CRLF terminator commits the scanned field and the current row.  The
guard excludes the blank-line case (empty pending row and empty field),
which cannot arise for rows of at least two fields. -/
theorem runCsv_fieldEnd_crlf (f : String) (row : List String)
    (rows : List (List String)) (hguard : ¬ row = [] ∨ ¬ f = "") :
    runCsv ['\r', '\n'] (fieldEnd f row rows) =
      ⟨.start, [], [], rows ++ [row ++ [f]]⟩ := by
  unfold fieldEnd
  split_ifs with hq hf
  · have h1 : csvStep ⟨.afterQuote, f.toList, row, rows⟩ '\r' =
        ⟨.sawCR, [], [], rows ++ [row ++ [f]]⟩ := by
      simp [csvStep, csvProcess, mk_toList]
    have hrun : runCsv ['\r', '\n'] ⟨.afterQuote, f.toList, row, rows⟩ =
        csvStep (csvStep ⟨.afterQuote, f.toList, row, rows⟩ '\r') '\n' := rfl
    rw [hrun, h1]
    simp [csvStep]
  · subst hf
    have hrow : ¬ row = [] := by
      rcases hguard with h | h
      · exact h
      · exact absurd rfl h
    have h1 : csvStep ⟨.start, [], row, rows⟩ '\r' =
        ⟨.sawCR, [], [], rows ++ [row ++ [""]]⟩ := by
      simp [csvStep, csvProcess, hrow]
    have hrun : runCsv ['\r', '\n'] ⟨.start, [], row, rows⟩ =
        csvStep (csvStep ⟨.start, [], row, rows⟩ '\r') '\n' := rfl
    rw [hrun, h1]
    simp [csvStep]
  · have h1 : csvStep ⟨.unquoted, f.toList, row, rows⟩ '\r' =
        ⟨.sawCR, [], [], rows ++ [row ++ [f]]⟩ := by
      simp [csvStep, csvProcess, mk_toList]
    have hrun : runCsv ['\r', '\n'] ⟨.unquoted, f.toList, row, rows⟩ =
        csvStep (csvStep ⟨.unquoted, f.toList, row, rows⟩ '\r') '\n' := rfl
    rw [hrun, h1]
    simp [csvStep]

/-- Scanning one encoded row with its terminator appends exactly that row. -/
theorem runCsv_rowChars_crlf (fs : List String) (row : List String)
    (rows : List (List String)) (hne : ¬ fs = [])
    (hguard : ¬ row = [] ∨ ¬ fs = [""]) :
    runCsv (csvRowChars fs ++ ['\r', '\n']) ⟨.start, [], row, rows⟩ =
      ⟨.start, [], [], rows ++ [row ++ fs]⟩ := by
  induction fs generalizing row with
  | nil => exact absurd rfl hne
  | cons f fs ih =>
    cases fs with
    | nil =>
      have hg : ¬ row = [] ∨ ¬ f = "" := by
        rcases hguard with h | h
        · exact Or.inl h
        · exact Or.inr (by simpa using h)
      rw [csvRowChars, runCsv_append, runCsv_field, runCsv_fieldEnd_crlf f row rows hg]
    | cons g gs =>
      have heq : csvRowChars (f :: g :: gs) ++ ['\r', '\n'] =
          csvField f ++ (',' :: (csvRowChars (g :: gs) ++ ['\r', '\n'])) := by
        rw [csvRowChars]
        simp
      rw [heq, runCsv_append, runCsv_field]
      have hrun : runCsv (',' :: (csvRowChars (g :: gs) ++ ['\r', '\n'])) (fieldEnd f row rows) =
          runCsv (csvRowChars (g :: gs) ++ ['\r', '\n'])
            (csvStep (fieldEnd f row rows) ',') := rfl
      rw [hrun, csvStep_fieldEnd_comma, ih (row ++ [f]) (by simp) (Or.inl (by simp))]
      simp

/-- Scanning the full encoding appends all the rows. -/
theorem runCsv_encodeRows (rows0 : List (List String)) (acc : List (List String))
    (h : ∀ r ∈ rows0, ¬ r = [] ∧ ¬ r = [""]) :
    runCsv (csvEncodeRows rows0) ⟨.start, [], [], acc⟩ = ⟨.start, [], [], acc ++ rows0⟩ := by
  induction rows0 generalizing acc with
  | nil => simp [csvEncodeRows, runCsv]
  | cons r rs ih =>
    rw [csvEncodeRows, List.flatMap_cons, runCsv_append,
      runCsv_rowChars_crlf r [] acc (h r (by simp)).1 (Or.inr (h r (by simp)).2)]
    have : csvEncodeRows rs = rs.flatMap (fun r => csvRowChars r ++ ['\r', '\n']) := rfl
    rw [← this, ih (acc ++ [[] ++ r]) (fun x hx => h x (by simp [hx]))]
    simp

/-- Round trip of the csv.writer encoding through the csv.reader scanner,
for rows that are not blank lines. -/
theorem parseCsv_encode (rows0 : List (List String))
    (h : ∀ r ∈ rows0, ¬ r = [] ∧ ¬ r = [""]) :
    parseCsv (String.mk (csvEncodeRows rows0)) = rows0 := by
  unfold parseCsv
  have h1 : (String.mk (csvEncodeRows rows0)).toList = csvEncodeRows rows0 := rfl
  rw [h1]
  have h2 : (csvEncodeRows rows0).foldl csvStep ⟨.start, [], [], []⟩ =
      runCsv (csvEncodeRows rows0) ⟨.start, [], [], []⟩ := rfl
  rw [h2, runCsv_encodeRows rows0 [] h]
  simp [csvFinish]

/-- C6: parsing the delimited export (header row plus one row per
transaction in the fixed column order date, payer, category, description,
value, frequency) yields exactly the rows of the chronological log at
export time, in the same order, with every cell the corresponding field of
the log entry. -/
theorem C6_export_roundtrip (db : DB) (sd ed : Option String) :
    parseCsv (db.export_csv sd ed) =
      csvHeader :: (db.get_expense_log sd ed).map txnCsvRow := by
  unfold DB.export_csv
  apply parseCsv_encode
  intro r hr
  rcases List.mem_cons.mp hr with rfl | hr2
  · exact ⟨by simp [csvHeader], by simp [csvHeader]⟩
  · rcases List.mem_map.mp hr2 with ⟨t, ht, rfl⟩
    exact ⟨by simp [txnCsvRow], by simp [txnCsvRow]⟩

/-- C1 counterexample: the claim says a case-insensitively matching add
updates in place with unchanged member count, but the UNIQUE constraint is
case-sensitive (BINARY collation): adding the name asha to a database whose
only member is named Asha succeeds and leaves two member rows. -/
theorem C1_counterexample :
    pyLower "asha" = pyLower "Asha" ∧
    exDbAsha.members.length = 1 ∧
    exDbAsha.add_family_member "asha" true 0 =
      .ok (2, ⟨[⟨1, "Asha", true, 5000⟩, ⟨2, "asha", true, 0⟩], 2, [], 0⟩) :=
  ⟨by decide, by decide, by rfl⟩

/-- C1 amended: an add whose trimmed name exactly (case-sensitively) equals
an existing member's name replaces that member's row, storing the new
attributes, and the member count is unchanged; an add whose name does not
exactly match any existing member (even if it matches one
case-insensitively) appends a second record and increases the count by
one. -/
theorem C1_amended (db : DB) (name : String) (es : Bool) (e : ℚ)
    (hwf : (db.members.map (fun m => m.name)).Nodup) (hne : ¬ pyStrip name = "") :
    ∃ db2, db.add_family_member name es e = .ok (db.seqMembers + 1, db2) ∧
      ((∃ m ∈ db.members, m.name = pyStrip name) →
        db2.members.length = db.members.length) ∧
      ((∀ m ∈ db.members, ¬ m.name = pyStrip name) →
        db2.members.length = db.members.length + 1) ∧
      (∃ m ∈ db2.members, m.name = pyStrip name ∧ m.earning_status = es ∧ m.earnings = e) := by
  refine ⟨_, add_family_member_ok db name es e hne, ?_, ?_, ?_⟩
  · intro hex
    have h1 : (db.members.filter (fun m => m.name = pyStrip name)).length = 1 :=
      length_filter_name_eq_one db.members (pyStrip name) hwf hex
    have h2 := length_filter_split (fun m => decide (m.name = pyStrip name)) db.members
    have h3 : db.members.filter (fun m => !(decide (m.name = pyStrip name))) =
        db.members.filter (fun m => ¬ m.name = pyStrip name) := by
      simp
    rw [h3] at h2
    simp only [List.length_append, List.length_cons, List.length_nil]
    omega
  · intro hall
    have h4 : db.members.filter (fun m => ¬ m.name = pyStrip name) = db.members := by
      apply List.filter_eq_self.mpr
      intro a ha
      simp only [decide_not, Bool.not_eq_eq_eq_not, Bool.not_true, decide_eq_false_iff_not]
      exact hall a ha
    rw [h4]
    simp
  · exact ⟨⟨db.seqMembers + 1, pyStrip name, es, e⟩, by simp, rfl, rfl, rfl⟩

/-- Witness for C1 amended: re-adding the exact name Asha keeps the count at
one; adding the differently-cased asha raises it to two. -/
theorem C1_amended_witness :
    ((exDbAsha.members.map (fun m => m.name)).Nodup ∧ ¬ pyStrip "Asha" = "") ∧
    (∃ db2, exDbAsha.add_family_member "Asha" false 7 = .ok (exDbAsha.seqMembers + 1, db2) ∧
      ((∃ m ∈ exDbAsha.members, m.name = pyStrip "Asha") →
        db2.members.length = exDbAsha.members.length) ∧
      ((∀ m ∈ exDbAsha.members, ¬ m.name = pyStrip "Asha") →
        db2.members.length = exDbAsha.members.length + 1) ∧
      (∃ m ∈ db2.members, m.name = pyStrip "Asha" ∧ m.earning_status = false ∧ m.earnings = 7)) :=
  ⟨⟨by decide, by decide⟩, C1_amended exDbAsha "Asha" false 7 (by decide) (by decide)⟩

/-- C10: an upsert whose trimmed name exactly equals an existing member's
name succeeds but replaces the row: the returned identifier is freshly
assigned and differs from the identifier the member had before, and every
row that now carries the name carries the new identifier. -/
theorem C10_replace_new_id (db : DB) (name : String) (es : Bool) (e : ℚ)
    (hwf : ∀ m ∈ db.members, m.id ≤ db.seqMembers)
    (m0 : Member) (hm : m0 ∈ db.members) (hname : m0.name = pyStrip name)
    (hne : ¬ pyStrip name = "") :
    ∃ db2, db.add_family_member name es e = .ok (db.seqMembers + 1, db2) ∧
      ¬ db.seqMembers + 1 = m0.id ∧
      (∃ m ∈ db2.members, m.name = pyStrip name ∧ m.id = db.seqMembers + 1 ∧
        m.earning_status = es ∧ m.earnings = e) ∧
      (∀ m ∈ db2.members, m.name = pyStrip name → m.id = db.seqMembers + 1) := by
  refine ⟨_, add_family_member_ok db name es e hne, ?_, ?_, ?_⟩
  · have := hwf m0 hm
    omega
  · exact ⟨⟨db.seqMembers + 1, pyStrip name, es, e⟩, by simp, rfl, rfl, rfl, rfl⟩
  · intro m hm2 hmn
    rcases List.mem_append.mp hm2 with hm3 | hm3
    · have := List.of_mem_filter hm3
      simp only [decide_eq_true_eq] at this
      exact absurd hmn this
    · rcases List.mem_singleton.mp hm3 with rfl
      rfl

/-- Witness for C10: re-adding Asha to exDbAsha returns the fresh id 2,
different from the previous id 1. -/
theorem C10_replace_new_id_witness :
    ((∀ m ∈ exDbAsha.members, m.id ≤ exDbAsha.seqMembers) ∧
      (⟨1, "Asha", true, 5000⟩ : Member) ∈ exDbAsha.members ∧
      (⟨1, "Asha", true, 5000⟩ : Member).name = pyStrip "Asha" ∧ ¬ pyStrip "Asha" = "") ∧
    (∃ db2, exDbAsha.add_family_member "Asha" false 7 = .ok (exDbAsha.seqMembers + 1, db2) ∧
      ¬ exDbAsha.seqMembers + 1 = (⟨1, "Asha", true, 5000⟩ : Member).id ∧
      (∃ m ∈ db2.members, m.name = pyStrip "Asha" ∧ m.id = exDbAsha.seqMembers + 1 ∧
        m.earning_status = false ∧ m.earnings = 7) ∧
      (∀ m ∈ db2.members, m.name = pyStrip "Asha" → m.id = exDbAsha.seqMembers + 1)) :=
  ⟨⟨by decide, by decide, by decide, by decide⟩,
   C10_replace_new_id exDbAsha "Asha" false 7 (by decide) ⟨1, "Asha", true, 5000⟩
     (by decide) (by decide) (by decide)⟩

end FET
